import Mathlib

/-!
Shallow embedding of the offline storage and sync module of the
BakeBook/HeritageBakes client (the module exporting addToOutbox, getOutbox,
updateOutboxItem, removeFromOutbox, clearOfflineData and processOutbox),
together with the store effect of the logout handler in the auth context.

The durable key-value store is modelled as a record of its four slots
(user, token, recipes, outbox); a slot holds none when the key was never
set or was deleted.  Reads that default a missing value to an empty list
mirror the source expressions of the form (value or empty).  The remote
API reached through fetch is a parameter: a function from the issued
request to an outcome, which is either a settled HTTP response (carrying
response.ok, response.status and the id field of the JSON body) or a
rejection carrying a message.  processOutbox additionally returns the
list of requests it issued, in order, so that statements about which
network calls happen are expressible.
-/

inductive OpType where
  | create
  | update
  | delete
deriving DecidableEq

inductive SyncStatus where
  | pending
  | syncing
  | synced
  | error
deriving DecidableEq

/-- Recipe payload: the client-side identifier plus the remaining fields,
collapsed here to a single title field (the only part of the payload the
sync code inspects is the id). -/
structure Recipe where
  id : String
  title : String
deriving DecidableEq

structure OutboxItem where
  id : String
  type : OpType
  data : Recipe
  timestamp : Nat
  status : SyncStatus
  error : Option String
deriving DecidableEq

/-- The four slots of the idb-keyval store. -/
structure Store where
  user : Option String
  token : Option String
  recipes : Option (List Recipe)
  outbox : Option (List OutboxItem)
deriving DecidableEq

def getRecipes (s : Store) : List Recipe := s.recipes.getD []

def saveRecipes (rs : List Recipe) (s : Store) : Store := { s with recipes := some rs }

def getOutbox (s : Store) : List OutboxItem := s.outbox.getD []

def getToken (s : Store) : Option String := s.token

def clearUser (s : Store) : Store := { s with user := none }

def clearToken (s : Store) : Store := { s with token := none }

/-- clearOfflineData: clears user, token and the outbox key; the recipes
slot is deliberately left alone (the source keeps recipes cached after
logout). -/
def clearOfflineData (s : Store) : Store :=
  { clearUser (clearToken s) with outbox := none }

/-- Store effect of the logout handler in the auth context: it calls
clearToken and clearUser on the offline store (it does not call
clearOfflineData). -/
def logoutStoreEffect (s : Store) : Store := clearUser (clearToken s)

/-- addToOutbox: builds the new item from the payload with a time-based id,
status pending and the current timestamp, and appends it to the stored
list.  The clock reading Date.now() is the explicit argument now. -/
def addToOutbox (now : Nat) (ty : OpType) (data : Recipe) (s : Store) : Store × String :=
  let id := "offline_" ++ toString now
  let newItem : OutboxItem :=
    { id := id, type := ty, data := data, timestamp := now,
      status := SyncStatus.pending, error := none }
  ({ s with outbox := some (getOutbox s ++ [newItem]) }, id)

/-- Partial update record accepted by updateOutboxItem (the call sites only
ever pass status, or status together with error). -/
structure OutboxUpdates where
  status : Option SyncStatus
  error : Option String
deriving DecidableEq

/-- Object-spread merge of a partial update into an item. -/
def applyUpdates (x : OutboxItem) (u : OutboxUpdates) : OutboxItem :=
  { x with
    status := u.status.getD x.status,
    error := match u.error with
             | some e => some e
             | none => x.error }

/-- Replace the first item whose id matches, mirroring findIndex followed by
in-place assignment; none when no item matches (findIndex returned -1).
Returns the new list together with the updated item. -/
def updateOutboxList (id : String) (u : OutboxUpdates) :
    List OutboxItem → Option (List OutboxItem × OutboxItem)
  | [] => none
  | x :: xs =>
      if x.id = id then some (applyUpdates x u :: xs, applyUpdates x u)
      else
        match updateOutboxList id u xs with
        | none => none
        | some (ys, it) => some (x :: ys, it)

/-- updateOutboxItem: returns the unchanged store and null when the id is
absent (the early return happens before any write); otherwise writes the
updated list back and returns the merged item. -/
def updateOutboxItem (id : String) (u : OutboxUpdates) (s : Store) :
    Store × Option OutboxItem :=
  match updateOutboxList id u (getOutbox s) with
  | none => (s, none)
  | some (ys, it) => ({ s with outbox := some ys }, some it)

/-- removeFromOutbox: filters out every item with the given id and writes
the result back. -/
def removeFromOutbox (id : String) (s : Store) : Store :=
  { s with outbox := some ((getOutbox s).filter (fun x => x.id != id)) }

/-- An HTTP request issued by the sync engine.  The body is the payload
minus the client-side id field, which here is the title. -/
structure Request where
  method : String
  url : String
  body : Option String
deriving DecidableEq

/-- Outcome of a fetch call: either a settled response (ok flag, status
code, and the id carried by the JSON body) or a rejection with a message. -/
inductive ApiOutcome where
  | resp (ok : Bool) (status : Nat) (resultId : String)
  | thrown (msg : String)
deriving DecidableEq

/-- The request the sync engine builds for an outbox item. -/
def requestFor (item : OutboxItem) : Request :=
  match item.type with
  | OpType.create =>
      { method := "POST", url := "/api/recipes", body := some item.data.title }
  | OpType.update =>
      { method := "PUT", url := "/api/recipes/" ++ item.data.id,
        body := some item.data.title }
  | OpType.delete =>
      { method := "DELETE", url := "/api/recipes/" ++ item.data.id, body := none }

/-- Replace the id of the first recipe whose id matches the old id,
mirroring findIndex on the cached list followed by an id rewrite. -/
def remapRecipeId (oldId newId : String) : List Recipe → List Recipe
  | [] => []
  | r :: rs =>
      if r.id = oldId then { r with id := newId } :: rs
      else r :: remapRecipeId oldId newId rs

/-- Store after the updateOutboxItem call that marks an item syncing. -/
def markSyncing (itemId : String) (s : Store) : Store :=
  (updateOutboxItem itemId { status := some SyncStatus.syncing, error := none } s).1

/-- Store after the updateOutboxItem call of the catch block, which marks
an item error with the thrown message. -/
def markError (itemId : String) (msg : String) (s : Store) : Store :=
  (updateOutboxItem itemId { status := some SyncStatus.error, error := some msg } s).1

/-- Body of the try block of processOutbox for one item: mark the item
syncing, re-fetch the token, dispatch on the operation kind, and on a
successful create with a changed id remap the cached recipe.  Returns the
store, ok or the thrown message, and the requests issued. -/
def tryProcessItem (api : Request → ApiOutcome) (item : OutboxItem) (s : Store) :
    Store × Except String Unit × List Request :=
  let s1 := markSyncing item.id s
  match getToken s1 with
  | none => (s1, Except.error ("No authentication token available"), [])
  | some _tok =>
    match item.type with
    | OpType.delete =>
      match api (requestFor item) with
      | ApiOutcome.thrown msg => (s1, Except.error msg, [requestFor item])
      | ApiOutcome.resp _ _ _ => (s1, Except.ok (), [requestFor item])
    | _ =>
      match api (requestFor item) with
      | ApiOutcome.thrown msg => (s1, Except.error msg, [requestFor item])
      | ApiOutcome.resp ok st rid =>
        if ok = false then
          (s1, Except.error ("Server returned " ++ toString st), [requestFor item])
        else
          let recipes := getRecipes s1
          let s2 :=
            if item.type = OpType.create ∧ rid ≠ item.data.id then
              if recipes.any (fun r => r.id == item.data.id) then
                saveRecipes (remapRecipeId item.data.id rid recipes) s1
              else s1
            else s1
          (s2, Except.ok (), [requestFor item])

/-- One loop iteration of processOutbox: on success remove the item from
the outbox, on failure mark it error with the message.  The Bool is true
when the item counted as synced. -/
def syncStep (api : Request → ApiOutcome) (item : OutboxItem) (s : Store) :
    Store × Bool × List Request :=
  match tryProcessItem api item s with
  | (s1, Except.ok _, reqs) => (removeFromOutbox item.id s1, true, reqs)
  | (s1, Except.error msg, reqs) => (markError item.id msg s1, false, reqs)

/-- Sequential loop over the pending snapshot, accumulating the synced and
error counters and the issued requests. -/
def processItems (api : Request → ApiOutcome) :
    List OutboxItem → Store → Nat → Nat → List Request →
    Store × Nat × Nat × List Request
  | [], s, synced, errors, reqs => (s, synced, errors, reqs)
  | item :: rest, s, synced, errors, reqs =>
      match syncStep api item s with
      | (s1, true, newReqs) => processItems api rest s1 (synced + 1) errors (reqs ++ newReqs)
      | (s1, false, newReqs) => processItems api rest s1 synced (errors + 1) (reqs ++ newReqs)

/-- processOutbox: early return when offline, otherwise drain the snapshot
of currently pending items.  Returns the store, the synced count, the
error count and the requests issued. -/
def processOutbox (online : Bool) (api : Request → ApiOutcome) (s : Store) :
    Store × Nat × Nat × List Request :=
  if online = false then (s, 0, 0, [])
  else
    processItems api
      ((getOutbox s).filter (fun x => x.status == SyncStatus.pending)) s 0 0 []

/-- Folding a list of enqueue operations (clock reading, kind, payload)
over a store. -/
def enqueueAll (ops : List (Nat × OpType × Recipe)) (s : Store) : Store :=
  ops.foldl (fun s op => (addToOutbox op.1 op.2.1 op.2.2 s).1) s

/-- Failure diagnosis of one item attempt, as a function of the token and
the environment alone: none when the attempt succeeds, otherwise the
message stored on the item.  This restates the control flow of
tryProcessItem, whose branches depend only on the token and on the
outcome of the one request the item generates. -/
def attemptFails (tok : Option String) (api : Request → ApiOutcome)
    (item : OutboxItem) : Option String :=
  match tok with
  | none => some ("No authentication token available")
  | some _ =>
    match item.type, api (requestFor item) with
    | OpType.delete, ApiOutcome.thrown msg => some msg
    | OpType.delete, ApiOutcome.resp _ _ _ => none
    | _, ApiOutcome.thrown msg => some msg
    | _, ApiOutcome.resp ok st _ =>
        if ok then none else some ("Server returned " ++ toString st)

/-- The record a failed item ends up as: status error with the message. -/
def errEntry (item : OutboxItem) (msg : String) : OutboxItem :=
  { item with status := SyncStatus.error, error := some msg }

/-- The record addToOutbox appends for a given clock reading and payload. -/
def enqueuedItem (now : Nat) (ty : OpType) (data : Recipe) : OutboxItem :=
  { id := "offline_" ++ toString now, type := ty, data := data,
    timestamp := now, status := SyncStatus.pending, error := none }

/-! Concrete stores and environments used to instantiate the theorems below. -/

/-- Environment whose every request settles successfully, answering id 42. -/
def apiAccept : Request → ApiOutcome := fun _ => ApiOutcome.resp true 200 ("42")

/-- Environment whose every request rejects, as fetch does with no network. -/
def apiReject : Request → ApiOutcome := fun _ => ApiOutcome.thrown ("Failed to fetch")

/-- Environment whose every request settles with a failure response. -/
def apiRejectResp : Request → ApiOutcome := fun _ => ApiOutcome.resp false 500 ("")

/-- Environment that accepts creates with server-assigned id 42. -/
def apiCreate42 : Request → ApiOutcome := fun _ => ApiOutcome.resp true 201 ("42")

def wItem1 : OutboxItem := enqueuedItem 1 OpType.create { id := "temp_abc", title := "Pie" }

def wStore1 : Store :=
  { user := none, token := some ("tok"), recipes := some [], outbox := some [wItem1] }

def wOps2 : List (Nat × OpType × Recipe) :=
  [(1, OpType.create, { id := "temp_a", title := "Pie" }),
   (2, OpType.update, { id := "7", title := "Tart" })]

def wStore2 : Store :=
  { user := none, token := some ("tok"), recipes := some [], outbox := none }

def wItem3 : OutboxItem := enqueuedItem 5 OpType.delete { id := "7", title := "Pie" }

def wStore3 : Store :=
  { user := none, token := some ("tok"), recipes := some [], outbox := some [wItem3] }

def wItem4 : OutboxItem := enqueuedItem 21 OpType.create { id := "temp_abc", title := "Pie" }

def wStore4 : Store :=
  { user := none, token := some ("tok"),
    recipes := some [{ id := "temp_abc", title := "Pie" }], outbox := some [wItem4] }

def wItem5 : OutboxItem := enqueuedItem 8 OpType.create { id := "temp_b", title := "Buns" }

def wStore5 : Store :=
  { user := none, token := none, recipes := some [], outbox := some [wItem5] }

def wErrItem7 : OutboxItem :=
  { id := "offline_9", type := OpType.update, data := { id := "5", title := "Tart" },
    timestamp := 9, status := SyncStatus.error, error := some ("boom") }

def wStore7 : Store :=
  { user := none, token := some ("tok"), recipes := none, outbox := some [wErrItem7] }

def wItem8 : OutboxItem := enqueuedItem 3 OpType.create { id := "temp_1", title := "Pie" }

def wStore8 : Store :=
  { user := none, token := none, recipes := none, outbox := some [wItem8] }

def wUpd8 : OutboxUpdates := { status := some SyncStatus.error, error := some ("nope") }

def wItemP9 : OutboxItem := enqueuedItem 11 OpType.update { id := "3", title := "Loaf" }

def wItemE9 : OutboxItem :=
  { id := "offline_12", type := OpType.create, data := { id := "temp_c", title := "Cake" },
    timestamp := 12, status := SyncStatus.error, error := some ("boom") }

def wStore9 : Store :=
  { user := none, token := some ("tok"), recipes := some [],
    outbox := some [wItemP9, wItemE9] }

def wItem10 : OutboxItem := enqueuedItem 4 OpType.delete { id := "1", title := "Pie" }

def wStore10 : Store :=
  { user := some ("alice"), token := some ("tok"),
    recipes := some [{ id := "1", title := "Pie" }], outbox := some [wItem10] }

/-! Basic facts about the store operations. -/

theorem applyUpdates_id (x : OutboxItem) (u : OutboxUpdates) :
    (applyUpdates x u).id = x.id := rfl

theorem getOutbox_set (s : Store) (l : List OutboxItem) :
    getOutbox { s with outbox := some l } = l := rfl

theorem getRecipes_saveRecipes (rs : List Recipe) (s : Store) :
    getRecipes (saveRecipes rs s) = rs := rfl

theorem getOutbox_saveRecipes (rs : List Recipe) (s : Store) :
    getOutbox (saveRecipes rs s) = getOutbox s := rfl

theorem getOutbox_removeFromOutbox (i : String) (s : Store) :
    getOutbox (removeFromOutbox i s) = (getOutbox s).filter (fun x => x.id != i) := rfl

theorem updateOutboxList_eq_none_iff (id : String) (u : OutboxUpdates)
    (l : List OutboxItem) :
    updateOutboxList id u l = none ↔ ∀ x ∈ l, x.id ≠ id := by
  induction l with
  | nil => simp [updateOutboxList]
  | cons a xs ih =>
      by_cases h : a.id = id
      · simp [updateOutboxList, h]
      · cases hrec : updateOutboxList id u xs with
        | none =>
            simp [updateOutboxList, h, hrec]
            exact ih.mp hrec
        | some p =>
            obtain ⟨zs, jt⟩ := p
            have hxs : ¬ ∀ x ∈ xs, x.id ≠ id := by
              intro hall
              rw [ih.mpr hall] at hrec
              simp at hrec
            simp [updateOutboxList, h, hrec, hxs]

theorem updateOutboxList_append (id : String) (u : OutboxUpdates)
    (l1 : List OutboxItem) (x : OutboxItem) (l2 : List OutboxItem)
    (hx : x.id = id) (h1 : ∀ y ∈ l1, y.id ≠ id) :
    updateOutboxList id u (l1 ++ x :: l2)
      = some (l1 ++ applyUpdates x u :: l2, applyUpdates x u) := by
  induction l1 with
  | nil => simp [updateOutboxList, hx]
  | cons a l1 ih =>
      have ha : a.id ≠ id := h1 a (List.mem_cons_self a l1)
      have hrec := ih (fun y hy => h1 y (List.mem_cons_of_mem a hy))
      simp [updateOutboxList, ha, hrec]

theorem updateOutboxList_some (id : String) (u : OutboxUpdates)
    (l : List OutboxItem) :
    ∀ ys it, updateOutboxList id u l = some (ys, it) →
      ∃ l1 x l2, l = l1 ++ x :: l2 ∧ x.id = id ∧ (∀ y ∈ l1, y.id ≠ id) ∧
        ys = l1 ++ applyUpdates x u :: l2 ∧ it = applyUpdates x u := by
  induction l with
  | nil => intro ys it h; simp [updateOutboxList] at h
  | cons a xs ih =>
      intro ys it h
      by_cases ha : a.id = id
      · simp only [updateOutboxList, ha, if_true, Option.some.injEq, Prod.mk.injEq] at h
        obtain ⟨hys, hit⟩ := h
        exact ⟨[], a, xs, by simp, ha, by simp, by simp [← hys], by simp [← hit]⟩
      · cases hrec : updateOutboxList id u xs with
        | none =>
            simp only [updateOutboxList, ha, if_false, hrec] at h
            exact Option.noConfusion h
        | some p =>
            obtain ⟨zs, jt⟩ := p
            simp only [updateOutboxList, ha, if_false, hrec, Option.some.injEq,
              Prod.mk.injEq] at h
            obtain ⟨hys, hit⟩ := h
            obtain ⟨l1, x, l2, hl, hx, hl1, hys', hit'⟩ := ih zs jt hrec
            refine ⟨a :: l1, x, l2, by simp [hl], hx, ?_, ?_, ?_⟩
            · intro y hy
              rcases List.mem_cons.mp hy with h' | h'
              · exact h' ▸ ha
              · exact hl1 y h'
            · rw [← hys, hys']; simp
            · rw [← hit]; exact hit'

theorem updateOutboxItem_not_found (id : String) (u : OutboxUpdates) (s : Store)
    (h : ∀ x ∈ getOutbox s, x.id ≠ id) :
    updateOutboxItem id u s = (s, none) := by
  unfold updateOutboxItem
  rw [(updateOutboxList_eq_none_iff id u (getOutbox s)).mpr h]

theorem updateOutboxItem_found (id : String) (u : OutboxUpdates) (s : Store)
    (l1 : List OutboxItem) (x : OutboxItem) (l2 : List OutboxItem)
    (hs : getOutbox s = l1 ++ x :: l2) (hx : x.id = id) (h1 : ∀ y ∈ l1, y.id ≠ id) :
    updateOutboxItem id u s
      = ({ s with outbox := some (l1 ++ applyUpdates x u :: l2) },
         some (applyUpdates x u)) := by
  unfold updateOutboxItem
  rw [hs, updateOutboxList_append id u l1 x l2 hx h1]

theorem updateOutboxItem_token (id : String) (u : OutboxUpdates) (s : Store) :
    ((updateOutboxItem id u s).1).token = s.token := by
  unfold updateOutboxItem
  cases h : updateOutboxList id u (getOutbox s) with
  | none => rfl
  | some p => cases p; rfl

theorem updateOutboxItem_user (id : String) (u : OutboxUpdates) (s : Store) :
    ((updateOutboxItem id u s).1).user = s.user := by
  unfold updateOutboxItem
  cases h : updateOutboxList id u (getOutbox s) with
  | none => rfl
  | some p => cases p; rfl

theorem updateOutboxItem_recipes (id : String) (u : OutboxUpdates) (s : Store) :
    ((updateOutboxItem id u s).1).recipes = s.recipes := by
  unfold updateOutboxItem
  cases h : updateOutboxList id u (getOutbox s) with
  | none => rfl
  | some p => cases p; rfl

/-! Filter helpers over outbox lists. -/

theorem filter_bne_then_beq (l : List OutboxItem) (p : String) :
    (l.filter (fun x => x.id != p)).filter (fun x => x.id == p) = [] := by
  rw [List.filter_filter]
  refine List.filter_eq_nil_iff.mpr ?_
  intro a _
  simp [bne]

theorem filter_bne_then_beq_ne (l : List OutboxItem) (p q : String) (hq : q ≠ p) :
    (l.filter (fun x => x.id != p)).filter (fun x => x.id == q)
      = l.filter (fun x => x.id == q) := by
  rw [List.filter_filter]
  apply List.filter_congr
  intro a _
  by_cases h : a.id = q
  · simp [h, hq]
  · simp [h]

theorem filter_middle_irrelevant (l1 l2 : List OutboxItem) (a b : OutboxItem)
    (q : String) (hab : b.id = a.id) (hq : q ≠ a.id) :
    (l1 ++ b :: l2).filter (fun x => x.id == q)
      = (l1 ++ a :: l2).filter (fun x => x.id == q) := by
  have hbq : (b.id == q) = false := by
    rw [hab]
    exact beq_eq_false_iff_ne.mpr (Ne.symm hq)
  have haq : (a.id == q) = false := beq_eq_false_iff_ne.mpr (Ne.symm hq)
  simp [List.filter_append, List.filter_cons, hbq, haq]

theorem filter_eq_singleton_decomp (l : List OutboxItem) (a : OutboxItem) (q : String)
    (h : l.filter (fun x => x.id == q) = [a]) :
    ∃ l1 l2, l = l1 ++ a :: l2 ∧ (∀ y ∈ l1, y.id ≠ q) ∧ (∀ y ∈ l2, y.id ≠ q) := by
  induction l with
  | nil => simp at h
  | cons x xs ih =>
      by_cases hx : x.id = q
      · rw [List.filter_cons_of_pos (by simp [hx])] at h
        obtain ⟨hxa, hrest⟩ := List.cons.injEq .. ▸ h
        refine ⟨[], xs, by simp [hxa], by simp, ?_⟩
        intro y hy
        have := List.filter_eq_nil_iff.mp hrest y hy
        simpa using this
      · rw [List.filter_cons_of_neg (by simp [hx])] at h
        obtain ⟨l1, l2, hl, h1, h2⟩ := ih h
        exact ⟨x :: l1, l2, by simp [hl], by
          intro y hy
          rcases List.mem_cons.mp hy with h' | h'
          · exact h' ▸ hx
          · exact h1 y h', h2⟩

theorem filter_id_of_nodup (l : List OutboxItem)
    (hN : (l.map (fun x => x.id)).Nodup) (i : OutboxItem) (hi : i ∈ l) :
    l.filter (fun x => x.id == i.id) = [i] := by
  induction l with
  | nil => simp at hi
  | cons a t ih =>
      rw [List.map_cons, List.nodup_cons] at hN
      obtain ⟨ha, hN'⟩ := hN
      rcases List.mem_cons.mp hi with hia | hit
      · subst hia
        rw [List.filter_cons_of_pos (by simp)]
        have : t.filter (fun x => x.id == i.id) = [] := by
          refine List.filter_eq_nil_iff.mpr ?_
          intro y hy
          simp only [beq_iff_eq]
          intro he
          exact ha (he ▸ List.mem_map_of_mem (fun x => x.id) hy)
        rw [this]
      · have hne : (a.id == i.id) = false := by
          refine beq_eq_false_iff_ne.mpr ?_
          intro he
          exact ha (he ▸ List.mem_map_of_mem (fun x => x.id) hit)
        rw [List.filter_cons_of_neg (by simp [hne])]
        exact ih hN' hit

/-! Store-level frame lemmas for the marking and removal operations. -/

theorem updateOutboxItem_filter_ne (id : String) (u : OutboxUpdates) (s : Store)
    (q : String) (hq : q ≠ id) :
    (getOutbox (updateOutboxItem id u s).1).filter (fun x => x.id == q)
      = (getOutbox s).filter (fun x => x.id == q) := by
  cases h : updateOutboxList id u (getOutbox s) with
  | none =>
      unfold updateOutboxItem
      rw [h]
  | some p =>
      obtain ⟨ys, it⟩ := p
      obtain ⟨l1, x, l2, hl, hx, hl1, hys, hit⟩ :=
        updateOutboxList_some id u (getOutbox s) ys it h
      unfold updateOutboxItem
      rw [h]
      show ys.filter _ = _
      rw [hys, hl]
      exact filter_middle_irrelevant l1 l2 x (applyUpdates x u) q
        (applyUpdates_id x u) (hx ▸ hq)

theorem updateOutboxItem_filter_self (id : String) (u : OutboxUpdates) (s : Store) :
    (getOutbox (updateOutboxItem id u s).1).filter (fun x => x.id != id)
      = (getOutbox s).filter (fun x => x.id != id) := by
  cases h : updateOutboxList id u (getOutbox s) with
  | none =>
      unfold updateOutboxItem
      rw [h]
  | some p =>
      obtain ⟨ys, it⟩ := p
      obtain ⟨l1, x, l2, hl, hx, hl1, hys, hit⟩ :=
        updateOutboxList_some id u (getOutbox s) ys it h
      unfold updateOutboxItem
      rw [h]
      show ys.filter _ = _
      rw [hys, hl]
      have hxf : (x.id != id) = false := by simp [hx]
      have haf : ((applyUpdates x u).id != id) = false := by simp [applyUpdates_id, hx]
      simp [List.filter_append, List.filter_cons, hxf, haf]

theorem markSyncing_token (i : String) (s : Store) :
    (markSyncing i s).token = s.token := updateOutboxItem_token i _ s

theorem markSyncing_user (i : String) (s : Store) :
    (markSyncing i s).user = s.user := updateOutboxItem_user i _ s

theorem markSyncing_recipes (i : String) (s : Store) :
    getRecipes (markSyncing i s) = getRecipes s := by
  unfold getRecipes
  rw [markSyncing, updateOutboxItem_recipes]

theorem getToken_markSyncing (i : String) (s : Store) :
    getToken (markSyncing i s) = s.token := markSyncing_token i s

theorem markSyncing_filter_ne (i : String) (s : Store) (q : String) (hq : q ≠ i) :
    (getOutbox (markSyncing i s)).filter (fun x => x.id == q)
      = (getOutbox s).filter (fun x => x.id == q) :=
  updateOutboxItem_filter_ne i _ s q hq

theorem markSyncing_filter_self (i : String) (s : Store) :
    (getOutbox (markSyncing i s)).filter (fun x => x.id != i)
      = (getOutbox s).filter (fun x => x.id != i) :=
  updateOutboxItem_filter_self i _ s

theorem markError_token (i msg : String) (s : Store) :
    (markError i msg s).token = s.token := updateOutboxItem_token i _ s

theorem markError_user (i msg : String) (s : Store) :
    (markError i msg s).user = s.user := updateOutboxItem_user i _ s

theorem markError_filter_ne (i msg : String) (s : Store) (q : String) (hq : q ≠ i) :
    (getOutbox (markError i msg s)).filter (fun x => x.id == q)
      = (getOutbox s).filter (fun x => x.id == q) :=
  updateOutboxItem_filter_ne i _ s q hq

theorem removeFromOutbox_token (i : String) (s : Store) :
    (removeFromOutbox i s).token = s.token := rfl

theorem removeFromOutbox_user (i : String) (s : Store) :
    (removeFromOutbox i s).user = s.user := rfl

theorem removeFromOutbox_filter_ne (i : String) (s : Store) (q : String) (hq : q ≠ i) :
    (getOutbox (removeFromOutbox i s)).filter (fun x => x.id == q)
      = (getOutbox s).filter (fun x => x.id == q) := by
  rw [getOutbox_removeFromOutbox]
  exact filter_bne_then_beq_ne (getOutbox s) i q hq

theorem saveRecipes_token (rs : List Recipe) (s : Store) :
    (saveRecipes rs s).token = s.token := rfl

theorem saveRecipes_user (rs : List Recipe) (s : Store) :
    (saveRecipes rs s).user = s.user := rfl

/-- Net effect of the two first-match status updates a failing item goes
through (syncing in the try block, then error in the catch block). -/
theorem markError_markSyncing (itemId msg : String) (s : Store)
    (l1 : List OutboxItem) (x : OutboxItem) (l2 : List OutboxItem)
    (hocc : getOutbox s = l1 ++ x :: l2) (hx : x.id = itemId)
    (h1 : ∀ y ∈ l1, y.id ≠ itemId) :
    markError itemId msg (markSyncing itemId s)
      = { s with outbox := some (l1 ++ errEntry x msg :: l2) } := by
  have hms : markSyncing itemId s
      = { s with outbox := some (l1 ++ applyUpdates x
          { status := some SyncStatus.syncing, error := none } :: l2) } := by
    unfold markSyncing
    rw [updateOutboxItem_found _ _ s l1 x l2 hocc hx h1]
  have hocc2 : getOutbox (markSyncing itemId s)
      = l1 ++ applyUpdates x { status := some SyncStatus.syncing, error := none } :: l2 := by
    rw [hms, getOutbox_set]
  unfold markError
  have hid : (applyUpdates x { status := some SyncStatus.syncing, error := none }).id
      = itemId := by
    rw [applyUpdates_id]; exact hx
  rw [updateOutboxItem_found _ _ _ l1 _ l2 hocc2 hid h1, hms]
  rfl

/-! Computation lemmas for tryProcessItem, one per control-flow branch. -/

theorem tryProcessItem_no_token (api : Request → ApiOutcome) (item : OutboxItem)
    (s : Store) (hts : s.token = none) :
    tryProcessItem api item s
      = (markSyncing item.id s,
         Except.error ("No authentication token available"), []) := by
  simp only [tryProcessItem, getToken_markSyncing, hts]

theorem tryProcessItem_delete_thrown (api : Request → ApiOutcome) (item : OutboxItem)
    (s : Store) (t msg : String) (hts : s.token = some t)
    (hty : item.type = OpType.delete)
    (hapi : api (requestFor item) = ApiOutcome.thrown msg) :
    tryProcessItem api item s
      = (markSyncing item.id s, Except.error msg, [requestFor item]) := by
  simp only [tryProcessItem, getToken_markSyncing, hts, hty, hapi]

theorem tryProcessItem_delete_respOk (api : Request → ApiOutcome) (item : OutboxItem)
    (s : Store) (t : String) (ok : Bool) (st : Nat) (rid : String)
    (hts : s.token = some t) (hty : item.type = OpType.delete)
    (hapi : api (requestFor item) = ApiOutcome.resp ok st rid) :
    tryProcessItem api item s
      = (markSyncing item.id s, Except.ok (), [requestFor item]) := by
  simp only [tryProcessItem, getToken_markSyncing, hts, hty, hapi]

theorem tryProcessItem_create_thrown (api : Request → ApiOutcome) (item : OutboxItem)
    (s : Store) (t msg : String) (hts : s.token = some t)
    (hty : item.type = OpType.create)
    (hapi : api (requestFor item) = ApiOutcome.thrown msg) :
    tryProcessItem api item s
      = (markSyncing item.id s, Except.error msg, [requestFor item]) := by
  simp only [tryProcessItem, getToken_markSyncing, hts, hty, hapi]

theorem tryProcessItem_update_thrown (api : Request → ApiOutcome) (item : OutboxItem)
    (s : Store) (t msg : String) (hts : s.token = some t)
    (hty : item.type = OpType.update)
    (hapi : api (requestFor item) = ApiOutcome.thrown msg) :
    tryProcessItem api item s
      = (markSyncing item.id s, Except.error msg, [requestFor item]) := by
  simp only [tryProcessItem, getToken_markSyncing, hts, hty, hapi]

theorem tryProcessItem_create_respFail (api : Request → ApiOutcome) (item : OutboxItem)
    (s : Store) (t : String) (st : Nat) (rid : String) (hts : s.token = some t)
    (hty : item.type = OpType.create)
    (hapi : api (requestFor item) = ApiOutcome.resp false st rid) :
    tryProcessItem api item s
      = (markSyncing item.id s,
         Except.error ("Server returned " ++ toString st), [requestFor item]) := by
  simp [tryProcessItem, getToken_markSyncing, hts, hty, hapi]

theorem tryProcessItem_update_respFail (api : Request → ApiOutcome) (item : OutboxItem)
    (s : Store) (t : String) (st : Nat) (rid : String) (hts : s.token = some t)
    (hty : item.type = OpType.update)
    (hapi : api (requestFor item) = ApiOutcome.resp false st rid) :
    tryProcessItem api item s
      = (markSyncing item.id s,
         Except.error ("Server returned " ++ toString st), [requestFor item]) := by
  simp [tryProcessItem, getToken_markSyncing, hts, hty, hapi]

theorem tryProcessItem_update_respOk (api : Request → ApiOutcome) (item : OutboxItem)
    (s : Store) (t : String) (st : Nat) (rid : String) (hts : s.token = some t)
    (hty : item.type = OpType.update)
    (hapi : api (requestFor item) = ApiOutcome.resp true st rid) :
    tryProcessItem api item s
      = (markSyncing item.id s, Except.ok (), [requestFor item]) := by
  simp [tryProcessItem, getToken_markSyncing, hts, hty, hapi]

theorem tryProcessItem_create_respOk (api : Request → ApiOutcome) (item : OutboxItem)
    (s : Store) (t : String) (st : Nat) (rid : String) (hts : s.token = some t)
    (hty : item.type = OpType.create)
    (hapi : api (requestFor item) = ApiOutcome.resp true st rid) :
    tryProcessItem api item s
      = (if rid ≠ item.data.id then
           (if (getRecipes s).any (fun r => r.id == item.data.id) then
              saveRecipes (remapRecipeId item.data.id rid (getRecipes s))
                (markSyncing item.id s)
            else markSyncing item.id s)
         else markSyncing item.id s, Except.ok (), [requestFor item]) := by
  simp [tryProcessItem, getToken_markSyncing, hts, hty, hapi, markSyncing_recipes]

/-! Anatomy of one loop iteration. -/

theorem syncStep_fst_shape (api : Request → ApiOutcome) (item : OutboxItem) (s : Store) :
    (∃ msg, (syncStep api item s).1 = markError item.id msg (markSyncing item.id s)) ∨
    (∃ s', getOutbox s' = getOutbox (markSyncing item.id s) ∧ s'.token = s.token ∧
        s'.user = s.user ∧ (syncStep api item s).1 = removeFromOutbox item.id s') := by
  cases hts : s.token with
  | none =>
      refine Or.inl ⟨"No authentication token available", ?_⟩
      simp only [syncStep, tryProcessItem_no_token api item s hts]
  | some t =>
      cases hty : item.type with
      | delete =>
          cases hapi : api (requestFor item) with
          | thrown msg =>
              refine Or.inl ⟨msg, ?_⟩
              simp only [syncStep, tryProcessItem_delete_thrown api item s t msg hts hty hapi]
          | resp ok st rid =>
              refine Or.inr ⟨markSyncing item.id s, rfl,
                by rw [markSyncing_token]; exact hts, markSyncing_user item.id s, ?_⟩
              simp only [syncStep, tryProcessItem_delete_respOk api item s t ok st rid hts hty hapi]
      | update =>
          cases hapi : api (requestFor item) with
          | thrown msg =>
              refine Or.inl ⟨msg, ?_⟩
              simp only [syncStep, tryProcessItem_update_thrown api item s t msg hts hty hapi]
          | resp ok st rid =>
              cases ok with
              | false =>
                  refine Or.inl ⟨"Server returned " ++ toString st, ?_⟩
                  simp only [syncStep, tryProcessItem_update_respFail api item s t st rid hts hty hapi]
              | true =>
                  refine Or.inr ⟨markSyncing item.id s, rfl,
                    by rw [markSyncing_token]; exact hts, markSyncing_user item.id s, ?_⟩
                  simp only [syncStep, tryProcessItem_update_respOk api item s t st rid hts hty hapi]
      | create =>
          cases hapi : api (requestFor item) with
          | thrown msg =>
              refine Or.inl ⟨msg, ?_⟩
              simp only [syncStep, tryProcessItem_create_thrown api item s t msg hts hty hapi]
          | resp ok st rid =>
              cases ok with
              | false =>
                  refine Or.inl ⟨"Server returned " ++ toString st, ?_⟩
                  simp only [syncStep, tryProcessItem_create_respFail api item s t st rid hts hty hapi]
              | true =>
                  by_cases hne : rid ≠ item.data.id
                  · by_cases hfound :
                        ((getRecipes s).any (fun r => r.id == item.data.id)) = true
                    · refine Or.inr ⟨saveRecipes (remapRecipeId item.data.id rid (getRecipes s))
                        (markSyncing item.id s), getOutbox_saveRecipes _ _, ?_, ?_, ?_⟩
                      · rw [saveRecipes_token, markSyncing_token]; exact hts
                      · rw [saveRecipes_user, markSyncing_user]
                      · simp only [syncStep,
                          tryProcessItem_create_respOk api item s t st rid hts hty hapi,
                          if_pos hne, if_pos hfound]
                    · refine Or.inr ⟨markSyncing item.id s, rfl,
                        by rw [markSyncing_token]; exact hts, markSyncing_user item.id s, ?_⟩
                      simp only [syncStep,
                        tryProcessItem_create_respOk api item s t st rid hts hty hapi,
                        if_pos hne, if_neg hfound]
                  · refine Or.inr ⟨markSyncing item.id s, rfl,
                      by rw [markSyncing_token]; exact hts, markSyncing_user item.id s, ?_⟩
                    simp only [syncStep,
                      tryProcessItem_create_respOk api item s t st rid hts hty hapi,
                      if_neg hne]

theorem syncStep_fst_token (api : Request → ApiOutcome) (item : OutboxItem) (s : Store) :
    ((syncStep api item s).1).token = s.token := by
  rcases syncStep_fst_shape api item s with ⟨msg, hsh⟩ | ⟨s', _, htk, _, hsh⟩
  · rw [hsh, markError_token, markSyncing_token]
  · rw [hsh, removeFromOutbox_token, htk]

theorem syncStep_fst_user (api : Request → ApiOutcome) (item : OutboxItem) (s : Store) :
    ((syncStep api item s).1).user = s.user := by
  rcases syncStep_fst_shape api item s with ⟨msg, hsh⟩ | ⟨s', _, _, hus, hsh⟩
  · rw [hsh, markError_user, markSyncing_user]
  · rw [hsh, removeFromOutbox_user, hus]

theorem syncStep_filter_ne (api : Request → ApiOutcome) (item : OutboxItem) (s : Store)
    (q : String) (hq : q ≠ item.id) :
    (getOutbox (syncStep api item s).1).filter (fun x => x.id == q)
      = (getOutbox s).filter (fun x => x.id == q) := by
  rcases syncStep_fst_shape api item s with ⟨msg, hsh⟩ | ⟨s', hob, _, _, hsh⟩
  · rw [hsh, markError_filter_ne _ _ _ _ hq, markSyncing_filter_ne _ _ _ hq]
  · rw [hsh, getOutbox_removeFromOutbox, filter_bne_then_beq_ne _ _ _ hq, hob,
      markSyncing_filter_ne _ _ _ hq]

/-- Successful iteration: when the attempt succeeds, the item counts as
synced, every entry bearing its id is removed from the stored outbox, and
exactly one request was issued. -/
theorem syncStep_ok (api : Request → ApiOutcome) (item : OutboxItem) (s : Store)
    (h : attemptFails s.token api item = none) :
    (syncStep api item s).2.1 = true ∧
    getOutbox (syncStep api item s).1 = (getOutbox s).filter (fun x => x.id != item.id) ∧
    (syncStep api item s).2.2 = [requestFor item] := by
  cases hts : s.token with
  | none => rw [hts] at h; simp [attemptFails] at h
  | some t =>
      rw [hts] at h
      cases hty : item.type with
      | delete =>
          cases hapi : api (requestFor item) with
          | thrown msg => simp [attemptFails, hty, hapi] at h
          | resp ok st rid =>
              have he := tryProcessItem_delete_respOk api item s t ok st rid hts hty hapi
              refine ⟨?_, ?_, ?_⟩ <;> simp only [syncStep, he]
              rw [getOutbox_removeFromOutbox, markSyncing_filter_self]
      | update =>
          cases hapi : api (requestFor item) with
          | thrown msg => simp [attemptFails, hty, hapi] at h
          | resp ok st rid =>
              cases ok with
              | false => simp [attemptFails, hty, hapi] at h
              | true =>
                  have he := tryProcessItem_update_respOk api item s t st rid hts hty hapi
                  refine ⟨?_, ?_, ?_⟩ <;> simp only [syncStep, he]
                  rw [getOutbox_removeFromOutbox, markSyncing_filter_self]
      | create =>
          cases hapi : api (requestFor item) with
          | thrown msg => simp [attemptFails, hty, hapi] at h
          | resp ok st rid =>
              cases ok with
              | false => simp [attemptFails, hty, hapi] at h
              | true =>
                  have he := tryProcessItem_create_respOk api item s t st rid hts hty hapi
                  by_cases hne : rid ≠ item.data.id
                  · by_cases hfound :
                        ((getRecipes s).any (fun r => r.id == item.data.id)) = true
                    · rw [if_pos hne, if_pos hfound] at he
                      refine ⟨?_, ?_, ?_⟩ <;> simp only [syncStep, he]
                      rw [getOutbox_removeFromOutbox, getOutbox_saveRecipes,
                        markSyncing_filter_self]
                    · rw [if_pos hne, if_neg hfound] at he
                      refine ⟨?_, ?_, ?_⟩ <;> simp only [syncStep, he]
                      rw [getOutbox_removeFromOutbox, markSyncing_filter_self]
                  · rw [if_neg hne] at he
                    refine ⟨?_, ?_, ?_⟩ <;> simp only [syncStep, he]
                    rw [getOutbox_removeFromOutbox, markSyncing_filter_self]

/-- Failing iteration: when the attempt fails with a message and the item
occurs in the stored outbox first among the entries bearing its id, the
item counts as an error and its entry becomes status error carrying the
message; a request is issued exactly when a token was available. -/
theorem syncStep_fail (api : Request → ApiOutcome) (item : OutboxItem) (s : Store)
    (msg : String) (h : attemptFails s.token api item = some msg)
    (l1 l2 : List OutboxItem) (hocc : getOutbox s = l1 ++ item :: l2)
    (h1 : ∀ y ∈ l1, y.id ≠ item.id) :
    syncStep api item s
      = ({ s with outbox := some (l1 ++ errEntry item msg :: l2) }, false,
         if s.token = none then [] else [requestFor item]) := by
  have hme := markError_markSyncing item.id msg s l1 item l2 hocc rfl h1
  cases hts : s.token with
  | none =>
      rw [hts] at h
      simp only [attemptFails, Option.some.injEq] at h
      subst h
      have he := tryProcessItem_no_token api item s hts
      simp only [syncStep, he, hme, hts]
      simp
  | some t =>
      rw [hts] at h
      cases hty : item.type with
      | delete =>
          cases hapi : api (requestFor item) with
          | thrown m =>
              simp only [attemptFails, hty, hapi, Option.some.injEq] at h
              have he := tryProcessItem_delete_thrown api item s t m hts hty hapi
              rw [h] at he
              simp only [syncStep, he, hme, hts]
              simp
          | resp ok st rid => simp [attemptFails, hty, hapi] at h
      | update =>
          cases hapi : api (requestFor item) with
          | thrown m =>
              simp only [attemptFails, hty, hapi, Option.some.injEq] at h
              have he := tryProcessItem_update_thrown api item s t m hts hty hapi
              rw [h] at he
              simp only [syncStep, he, hme, hts]
              simp
          | resp ok st rid =>
              cases ok with
              | true => simp [attemptFails, hty, hapi] at h
              | false =>
                  simp only [attemptFails, hty, hapi, if_neg Bool.false_ne_true,
                    Option.some.injEq] at h
                  have he := tryProcessItem_update_respFail api item s t st rid hts hty hapi
                  rw [h] at he
                  simp only [syncStep, he, hme, hts]
                  simp
      | create =>
          cases hapi : api (requestFor item) with
          | thrown m =>
              simp only [attemptFails, hty, hapi, Option.some.injEq] at h
              have he := tryProcessItem_create_thrown api item s t m hts hty hapi
              rw [h] at he
              simp only [syncStep, he, hme, hts]
              simp
          | resp ok st rid =>
              cases ok with
              | true => simp [attemptFails, hty, hapi] at h
              | false =>
                  simp only [attemptFails, hty, hapi, if_neg Bool.false_ne_true,
                    Option.some.injEq] at h
                  have he := tryProcessItem_create_respFail api item s t st rid hts hty hapi
                  rw [h] at he
                  simp only [syncStep, he, hme, hts]
                  simp

/-! The sequential drain loop. -/

theorem processItems_cons (api : Request → ApiOutcome) (item : OutboxItem)
    (rest : List OutboxItem) (s : Store) (y e : Nat) (r : List Request) :
    processItems api (item :: rest) s y e r
      = (match syncStep api item s with
         | (s1, true, newReqs) => processItems api rest s1 (y + 1) e (r ++ newReqs)
         | (s1, false, newReqs) => processItems api rest s1 y (e + 1) (r ++ newReqs)) :=
  rfl

theorem processItems_filter_untouched (api : Request → ApiOutcome)
    (items : List OutboxItem) :
    ∀ (s : Store) (y e : Nat) (r : List Request) (q : String),
      (∀ i ∈ items, i.id ≠ q) →
      (getOutbox (processItems api items s y e r).1).filter (fun x => x.id == q)
        = (getOutbox s).filter (fun x => x.id == q) := by
  induction items with
  | nil => intro s y e r q h; rfl
  | cons item rest ih =>
      intro s y e r q h
      have hq : q ≠ item.id := Ne.symm (h item (List.mem_cons_self item rest))
      have hrest : ∀ i ∈ rest, i.id ≠ q := fun i hi => h i (List.mem_cons_of_mem item hi)
      rw [processItems_cons]
      rcases hstep : syncStep api item s with ⟨s1, flag, nr⟩
      have hfe := syncStep_filter_ne api item s q hq
      rw [hstep] at hfe
      cases flag
      · show (getOutbox (processItems api rest s1 y (e + 1) (r ++ nr)).1).filter _ = _
        rw [ih s1 y (e + 1) (r ++ nr) q hrest]
        simpa using hfe
      · show (getOutbox (processItems api rest s1 (y + 1) e (r ++ nr)).1).filter _ = _
        rw [ih s1 (y + 1) e (r ++ nr) q hrest]
        simpa using hfe

theorem processItems_fst_token (api : Request → ApiOutcome) (items : List OutboxItem) :
    ∀ (s : Store) (y e : Nat) (r : List Request),
      ((processItems api items s y e r).1).token = s.token := by
  induction items with
  | nil => intro s y e r; rfl
  | cons item rest ih =>
      intro s y e r
      rw [processItems_cons]
      rcases hstep : syncStep api item s with ⟨s1, flag, nr⟩
      have htk := syncStep_fst_token api item s
      rw [hstep] at htk
      cases flag
      · show ((processItems api rest s1 y (e + 1) (r ++ nr)).1).token = s.token
        rw [ih s1 y (e + 1) (r ++ nr)]
        simpa using htk
      · show ((processItems api rest s1 (y + 1) e (r ++ nr)).1).token = s.token
        rw [ih s1 (y + 1) e (r ++ nr)]
        simpa using htk

theorem attemptFails_of_allOk (api : Request → ApiOutcome) (t : String)
    (hapi : ∀ r', ∃ st rid, api r' = ApiOutcome.resp true st rid) (item : OutboxItem) :
    attemptFails (some t) api item = none := by
  obtain ⟨st, rid, h⟩ := hapi (requestFor item)
  cases hty : item.type <;> simp [attemptFails, hty, h]

/-- Draining with an environment whose every request settles with a
successful response: every processed item counts as synced, and every
entry carrying a processed id leaves the outbox. -/
theorem processItems_allOk (api : Request → ApiOutcome) (t : String)
    (hapi : ∀ r', ∃ st rid, api r' = ApiOutcome.resp true st rid)
    (items : List OutboxItem) :
    ∀ (s : Store) (y e : Nat) (r : List Request), s.token = some t →
      (processItems api items s y e r).2.1 = y + items.length ∧
      (processItems api items s y e r).2.2.1 = e ∧
      getOutbox (processItems api items s y e r).1
        = (getOutbox s).filter (fun x => items.all (fun i => x.id != i.id)) := by
  induction items with
  | nil =>
      intro s y e r ht
      refine ⟨rfl, rfl, ?_⟩
      show getOutbox s = _
      simp
  | cons item rest ih =>
      intro s y e r ht
      have haf : attemptFails s.token api item = none := by
        rw [ht]; exact attemptFails_of_allOk api t hapi item
      obtain ⟨hflag, hob, hreq⟩ := syncStep_ok api item s haf
      rw [processItems_cons]
      rcases hstep : syncStep api item s with ⟨s1, flag, nr⟩
      rw [hstep] at hflag hob hreq
      dsimp only at hflag hob hreq
      subst hflag
      have ht1 : s1.token = some t := by
        have htk := syncStep_fst_token api item s
        rw [hstep] at htk
        dsimp only at htk
        rw [htk, ht]
      obtain ⟨hy, he, hob'⟩ := ih s1 (y + 1) e (r ++ nr) ht1
      refine ⟨?_, ?_, ?_⟩
      · show (processItems api rest s1 (y + 1) e (r ++ nr)).2.1 = y + (item :: rest).length
        rw [hy]
        simp only [List.length_cons]
        omega
      · exact he
      · show getOutbox (processItems api rest s1 (y + 1) e (r ++ nr)).1 = _
        rw [hob', hob, List.filter_filter]
        apply List.filter_congr
        intro a _
        simp [List.all_cons, Bool.and_comm]

theorem filter_middle_only (l1 l2 : List OutboxItem) (a : OutboxItem) (q : String)
    (ha : a.id = q) (h1 : ∀ y ∈ l1, y.id ≠ q) (h2 : ∀ y ∈ l2, y.id ≠ q) :
    (l1 ++ a :: l2).filter (fun x => x.id == q) = [a] := by
  have hl1 : l1.filter (fun x => x.id == q) = [] :=
    List.filter_eq_nil_iff.mpr (fun y hy => by simp [h1 y hy])
  have hl2 : l2.filter (fun x => x.id == q) = [] :=
    List.filter_eq_nil_iff.mpr (fun y hy => by simp [h2 y hy])
  simp [List.filter_append, List.filter_cons, ha, hl1, hl2]

/-- One full pass over a snapshot of items with pairwise-distinct ids, each
occurring exactly once in the stored outbox: the synced and error counters
count the succeeding and failing attempts, requests are issued exactly
when a token is available, and each processed id ends up either gone (on
success) or as the error-marked entry (on failure). -/
theorem processItems_master (api : Request → ApiOutcome) (items : List OutboxItem) :
    ∀ (s : Store) (y e : Nat) (r : List Request),
      List.Pairwise (fun a b => a.id ≠ b.id) items →
      (∀ i ∈ items, (getOutbox s).filter (fun x => x.id == i.id) = [i]) →
      (processItems api items s y e r).2.1
          = y + items.countP (fun i => (attemptFails s.token api i).isNone) ∧
      (processItems api items s y e r).2.2.1
          = e + items.countP (fun i => (attemptFails s.token api i).isSome) ∧
      (processItems api items s y e r).2.2.2
          = r ++ (if s.token = none then [] else items.map requestFor) ∧
      (∀ i ∈ items,
        (getOutbox (processItems api items s y e r).1).filter (fun x => x.id == i.id)
          = match attemptFails s.token api i with
            | none => []
            | some msg => [errEntry i msg]) := by
  induction items with
  | nil =>
      intro s y e r _ _
      refine ⟨by simp [processItems], by simp [processItems], ?_, by simp⟩
      show r = r ++ (if s.token = none then [] else [])
      simp
  | cons item rest ih =>
      intro s y e r hpw h2
      obtain ⟨hhead, htail⟩ := List.pairwise_cons.mp hpw
      have h2item := h2 item (List.mem_cons_self item rest)
      cases haf : attemptFails s.token api item with
      | none =>
          obtain ⟨hflag, hob, hreq⟩ := syncStep_ok api item s haf
          rw [processItems_cons]
          rcases hstep : syncStep api item s with ⟨s1, flag, nr⟩
          rw [hstep] at hflag hob hreq
          dsimp only at hflag hob hreq
          subst hflag
          subst hreq
          have ht1 : s1.token = s.token := by
            have htk := syncStep_fst_token api item s
            rw [hstep] at htk
            dsimp only at htk
            exact htk
          have hts : s.token ≠ none := by
            intro hn
            rw [hn] at haf
            simp [attemptFails] at haf
          have h2' : ∀ i ∈ rest, (getOutbox s1).filter (fun x => x.id == i.id) = [i] := by
            intro i hi
            rw [hob, filter_bne_then_beq_ne _ _ _ (Ne.symm (hhead i hi))]
            exact h2 i (List.mem_cons_of_mem item hi)
          obtain ⟨hy, he, hr, hmark⟩ :=
            ih s1 y.succ e (r ++ [requestFor item]) htail h2'
          rw [ht1] at hy he hr
          refine ⟨?_, ?_, ?_, ?_⟩
          · show (processItems api rest s1 y.succ e (r ++ [requestFor item])).2.1 = _
            rw [hy, List.countP_cons]
            simp [haf]
            omega
          · show (processItems api rest s1 y.succ e (r ++ [requestFor item])).2.2.1 = _
            rw [he, List.countP_cons]
            simp [haf]
          · show (processItems api rest s1 y.succ e (r ++ [requestFor item])).2.2.2 = _
            cases hts2 : s.token with
            | none => exact absurd hts2 hts
            | some t =>
                rw [hts2] at hr
                rw [hr]
                simp
          · intro i hi
            rcases List.mem_cons.mp hi with hieq | hirest
            · subst hieq
              rw [haf]
              rw [processItems_filter_untouched api rest s1 y.succ e _ _
                (fun j hj => Ne.symm (hhead j hj))]
              rw [hob]
              exact filter_bne_then_beq (getOutbox s) _
            · have := hmark i hirest
              simp only [ht1] at this
              exact this
      | some msg =>
          obtain ⟨l1, l2, hocc, h1, h2''⟩ :=
            filter_eq_singleton_decomp (getOutbox s) item item.id h2item
          have h1' : ∀ y ∈ l1, y.id ≠ item.id := h1
          have hfail := syncStep_fail api item s msg haf l1 l2 hocc h1'
          rw [processItems_cons, hfail]
          have hob1 : getOutbox { s with outbox := some (l1 ++ errEntry item msg :: l2) }
              = l1 ++ errEntry item msg :: l2 := getOutbox_set s _
          have ht1 : ({ s with outbox := some (l1 ++ errEntry item msg :: l2) } : Store).token
              = s.token := rfl
          have h2' : ∀ i ∈ rest,
              (getOutbox { s with outbox := some (l1 ++ errEntry item msg :: l2) }).filter
                (fun x => x.id == i.id) = [i] := by
            intro i hi
            rw [hob1,
              filter_middle_irrelevant l1 l2 item (errEntry item msg) i.id rfl
                (Ne.symm (hhead i hi)),
              ← hocc]
            exact h2 i (List.mem_cons_of_mem item hi)
          obtain ⟨hy, he, hr, hmark⟩ :=
            ih { s with outbox := some (l1 ++ errEntry item msg :: l2) } y (e + 1)
              (r ++ (if s.token = none then [] else [requestFor item])) htail h2'
          rw [ht1] at hy he hr
          refine ⟨?_, ?_, ?_, ?_⟩
          · show (processItems api rest _ y (e + 1) _).2.1 = _
            rw [hy, List.countP_cons]
            simp [haf]
          · show (processItems api rest _ y (e + 1) _).2.2.1 = _
            rw [he, List.countP_cons]
            simp [haf]
            omega
          · show (processItems api rest _ y (e + 1) _).2.2.2 = _
            cases hts2 : s.token with
            | none =>
                rw [hts2] at hr
                rw [hr]
                simp
            | some t =>
                rw [hts2] at hr
                rw [hr]
                simp
          · intro i hi
            rcases List.mem_cons.mp hi with hieq | hirest
            · subst hieq
              rw [haf]
              rw [processItems_filter_untouched api rest _ y (e + 1) _ i.id
                (fun j hj => Ne.symm (hhead j hj))]
              rw [hob1]
              exact filter_middle_only l1 l2 (errEntry i msg) i.id rfl h1 h2''
            · have := hmark i hirest
              simp only [ht1] at this
              exact this

/-! Enqueue and pass-entry helpers. -/

theorem getOutbox_addToOutbox (now : Nat) (ty : OpType) (data : Recipe) (s : Store) :
    getOutbox (addToOutbox now ty data s).1
      = getOutbox s ++ [enqueuedItem now ty data] := rfl

theorem enqueueAll_token (ops : List (Nat × OpType × Recipe)) :
    ∀ s : Store, (enqueueAll ops s).token = s.token := by
  induction ops with
  | nil => intro s; rfl
  | cons op ops ih =>
      intro s
      show (enqueueAll ops ((addToOutbox op.1 op.2.1 op.2.2 s).1)).token = s.token
      rw [ih]
      rfl

theorem enqueueAll_pending (ops : List (Nat × OpType × Recipe)) :
    ∀ s : Store, (∀ x ∈ getOutbox s, x.status = SyncStatus.pending) →
      ∀ x ∈ getOutbox (enqueueAll ops s), x.status = SyncStatus.pending := by
  induction ops with
  | nil => intro s h; exact h
  | cons op ops ih =>
      intro s h
      refine ih _ ?_
      intro x hx
      rw [getOutbox_addToOutbox] at hx
      rcases List.mem_append.mp hx with h1 | h1
      · exact h x h1
      · rw [List.mem_singleton.mp h1]; rfl

theorem enqueueAll_length (ops : List (Nat × OpType × Recipe)) :
    ∀ s : Store, (getOutbox (enqueueAll ops s)).length
      = (getOutbox s).length + ops.length := by
  induction ops with
  | nil => intro s; rfl
  | cons op ops ih =>
      intro s
      show (getOutbox (enqueueAll ops ((addToOutbox op.1 op.2.1 op.2.2 s).1))).length = _
      rw [ih, getOutbox_addToOutbox]
      simp only [List.length_append, List.length_cons, List.length_nil, List.length_cons]
      omega

theorem pending_pairwise (s : Store)
    (hN : ((getOutbox s).map (fun x => x.id)).Nodup) :
    List.Pairwise (fun a b => a.id ≠ b.id)
      ((getOutbox s).filter (fun x => x.status == SyncStatus.pending)) := by
  have hp : List.Pairwise (fun a b => a.id ≠ b.id) (getOutbox s) :=
    List.pairwise_map.mp hN
  exact hp.sublist (List.filter_sublist _)

theorem pending_filter_eq (s : Store)
    (hN : ((getOutbox s).map (fun x => x.id)).Nodup) :
    ∀ i ∈ (getOutbox s).filter (fun x => x.status == SyncStatus.pending),
      (getOutbox s).filter (fun x => x.id == i.id) = [i] :=
  fun i hi => filter_id_of_nodup (getOutbox s) hN i (List.mem_of_mem_filter hi)

theorem processOutbox_online (api : Request → ApiOutcome) (s : Store) :
    processOutbox true api s
      = processItems api
          ((getOutbox s).filter (fun x => x.status == SyncStatus.pending)) s 0 0 [] := by
  simp [processOutbox]

/-! The claims. -/

/-- C6: if the connectivity indicator reports offline at the start of a
processOutbox call, the call returns zero synced and zero errors, leaves
the whole store (hence every outbox item and its status) unchanged, and
issues no requests; in particular no item is marked error. -/
theorem processOutbox_offline_noop (api : Request → ApiOutcome) (s : Store) :
    processOutbox false api s = (s, 0, 0, []) := rfl

/-- C7: when no outbox item has status pending, a processOutbox call
returns zero synced and zero errors, leaves the store unchanged, and
issues no network requests. -/
theorem processOutbox_no_pending_noop (online : Bool) (api : Request → ApiOutcome)
    (s : Store)
    (h : (getOutbox s).filter (fun x => x.status == SyncStatus.pending) = []) :
    processOutbox online api s = (s, 0, 0, []) := by
  cases online
  · rfl
  · rw [processOutbox_online, h]
    rfl

theorem processOutbox_no_pending_noop_witness :
    processOutbox true apiAccept wStore7 = (wStore7, 0, 0, []) :=
  processOutbox_no_pending_noop true apiAccept wStore7 (by decide)

/-- C8: updateOutboxItem returns null and leaves the stored outbox
unchanged when no item carries the id, and otherwise merges the partial
update into the (first, hence under unique ids the) matching item, leaving
every other item unchanged. -/
theorem updateOutboxItem_spec (s : Store) (id : String) (u : OutboxUpdates) :
    ((∀ x ∈ getOutbox s, x.id ≠ id) → updateOutboxItem id u s = (s, none)) ∧
    (∀ l1 x l2, getOutbox s = l1 ++ x :: l2 → x.id = id → (∀ y ∈ l1, y.id ≠ id) →
      updateOutboxItem id u s
        = ({ s with outbox := some (l1 ++ applyUpdates x u :: l2) },
           some (applyUpdates x u))) :=
  ⟨fun h => updateOutboxItem_not_found id u s h,
   fun l1 x l2 hs hx h1 => updateOutboxItem_found id u s l1 x l2 hs hx h1⟩

theorem updateOutboxItem_spec_witness :
    updateOutboxItem ("missing") wUpd8 wStore8 = (wStore8, none) ∧
    updateOutboxItem ("offline_3") wUpd8 wStore8
      = ({ wStore8 with outbox := some ([] ++ applyUpdates wItem8 wUpd8 :: []) },
         some (applyUpdates wItem8 wUpd8)) :=
  ⟨(updateOutboxItem_spec wStore8 ("missing") wUpd8).1 (by decide),
   (updateOutboxItem_spec wStore8 ("offline_3") wUpd8).2 [] wItem8 [] (by decide)
     (by decide) (by decide)⟩

/-- C10 counterexample: at a store whose outbox is nonempty, the logout
handler leaves the outbox slot in place, so logout does not perform
clearOfflineData as the claim asserts. -/
theorem logout_leaves_outbox_cex :
    (logoutStoreEffect wStore10).outbox ≠ none ∧
    logoutStoreEffect wStore10 ≠ clearOfflineData wStore10 := by decide

/-- C10 (amended): clearOfflineData deletes the user, token and outbox
slots and leaves the recipes slot unchanged; the logout handler, however,
does not invoke clearOfflineData: it clears only the token and user slots,
leaving the outbox as well; cached recipes survive logout either way. -/
theorem clearOfflineData_spec (s : Store) :
    clearOfflineData s
      = { user := none, token := none, recipes := s.recipes, outbox := none } ∧
    logoutStoreEffect s = { s with user := none, token := none } ∧
    (logoutStoreEffect s).recipes = s.recipes :=
  ⟨rfl, rfl, rfl⟩

/-- C2: for every sequence of enqueue operations starting from an empty
outbox, draining while online with a token available against an
environment whose every call settles successfully leaves the outbox empty
and returns a synced count equal to the number of enqueues and an errors
count of zero. -/
theorem processOutbox_drain_all (ops : List (Nat × OpType × Recipe)) (s0 : Store)
    (t : String) (api : Request → ApiOutcome) (h0 : getOutbox s0 = [])
    (ht : s0.token = some t)
    (hapi : ∀ r', ∃ st rid, api r' = ApiOutcome.resp true st rid) :
    getOutbox (processOutbox true api (enqueueAll ops s0)).1 = [] ∧
    (processOutbox true api (enqueueAll ops s0)).2.1 = ops.length ∧
    (processOutbox true api (enqueueAll ops s0)).2.2.1 = 0 := by
  have htk : (enqueueAll ops s0).token = some t := by rw [enqueueAll_token, ht]
  have hpend : ∀ x ∈ getOutbox (enqueueAll ops s0), x.status = SyncStatus.pending := by
    refine enqueueAll_pending ops s0 ?_ 
    intro x hx
    rw [h0] at hx
    exact absurd hx (List.not_mem_nil x)
  have hfil : (getOutbox (enqueueAll ops s0)).filter
      (fun x => x.status == SyncStatus.pending) = getOutbox (enqueueAll ops s0) := by
    apply List.filter_eq_self.mpr
    intro a ha
    simp [hpend a ha]
  have hlen : (getOutbox (enqueueAll ops s0)).length = ops.length := by
    rw [enqueueAll_length, h0]
    simp
  obtain ⟨hy, he, hob⟩ := processItems_allOk api t hapi (getOutbox (enqueueAll ops s0))
    (enqueueAll ops s0) 0 0 [] htk
  rw [processOutbox_online, hfil]
  refine ⟨?_, ?_, ?_⟩
  · rw [hob]
    apply List.filter_eq_nil_iff.mpr
    intro a ha
    intro hp
    rw [List.all_eq_true] at hp
    have := hp a ha
    simp at this
  · rw [hy]
    simpa using hlen
  · exact he

theorem processOutbox_drain_all_witness :
    getOutbox (processOutbox true apiAccept (enqueueAll wOps2 wStore2)).1 = [] ∧
    (processOutbox true apiAccept (enqueueAll wOps2 wStore2)).2.1 = wOps2.length ∧
    (processOutbox true apiAccept (enqueueAll wOps2 wStore2)).2.2.1 = 0 :=
  processOutbox_drain_all wOps2 wStore2 ("tok") apiAccept rfl rfl
    (fun _ => ⟨200, "42", rfl⟩)

/-- C3: a pending delete item whose request settles with a failure
response is still removed from the outbox and counted in the synced total,
not the errors total. -/
theorem processOutbox_delete_failure_synced (api : Request → ApiOutcome) (s : Store)
    (item : OutboxItem) (t : String) (st : Nat) (rid : String)
    (ht : s.token = some t) (hty : item.type = OpType.delete)
    (hp : (getOutbox s).filter (fun x => x.status == SyncStatus.pending) = [item])
    (hresp : api (requestFor item) = ApiOutcome.resp false st rid) :
    (processOutbox true api s).2.1 = 1 ∧
    (processOutbox true api s).2.2.1 = 0 ∧
    (getOutbox (processOutbox true api s).1).filter (fun x => x.id == item.id) = [] := by
  have haf : attemptFails s.token api item = none := by
    rw [ht]
    simp [attemptFails, hty, hresp]
  obtain ⟨hflag, hob, hreq⟩ := syncStep_ok api item s haf
  rw [processOutbox_online, hp, processItems_cons]
  rcases hstep : syncStep api item s with ⟨s1, flag, nr⟩
  rw [hstep] at hflag hob hreq
  dsimp only at hflag hob hreq
  subst hflag
  refine ⟨rfl, rfl, ?_⟩
  show (getOutbox s1).filter _ = []
  rw [hob]
  exact filter_bne_then_beq (getOutbox s) item.id

theorem processOutbox_delete_failure_synced_witness :
    (processOutbox true apiRejectResp wStore3).2.1 = 1 ∧
    (processOutbox true apiRejectResp wStore3).2.2.1 = 0 ∧
    (getOutbox (processOutbox true apiRejectResp wStore3).1).filter
      (fun x => x.id == wItem3.id) = [] :=
  processOutbox_delete_failure_synced apiRejectResp wStore3 wItem3 ("tok") 500 ("")
    rfl rfl (by decide) rfl

/-- C5: with no token in the store, a pass marks every pending item error
with the message about the missing token, counts each as an error and
none as synced, issues no requests, and still visits all pending items
rather than aborting. -/
theorem processOutbox_no_token (api : Request → ApiOutcome) (s : Store)
    (hN : ((getOutbox s).map (fun x => x.id)).Nodup) (ht : s.token = none) :
    (processOutbox true api s).2.1 = 0 ∧
    (processOutbox true api s).2.2.1
      = (getOutbox s).countP (fun x => x.status == SyncStatus.pending) ∧
    (processOutbox true api s).2.2.2 = [] ∧
    ∀ x ∈ getOutbox s, x.status = SyncStatus.pending →
      (getOutbox (processOutbox true api s).1).filter (fun y => y.id == x.id)
        = [errEntry x ("No authentication token available")] := by
  obtain ⟨hy, he, hr, hmark⟩ := processItems_master api
    ((getOutbox s).filter (fun v => v.status == SyncStatus.pending)) s 0 0 []
    (pending_pairwise s hN) (pending_filter_eq s hN)
  have hafall : ∀ i, attemptFails s.token api i
      = some ("No authentication token available") := by
    intro i
    rw [ht]
    rfl
  rw [processOutbox_online]
  refine ⟨?_, ?_, ?_, ?_⟩
  · rw [hy]
    simp [hafall]
  · rw [he]
    simp [hafall, List.countP_eq_length_filter]
  · rw [hr]
    simp [ht]
  · intro x hx hxp
    have hxmem : x ∈ (getOutbox s).filter (fun v => v.status == SyncStatus.pending) :=
      List.mem_filter.mpr ⟨hx, by simp [hxp]⟩
    have h2 := hmark x hxmem
    rw [hafall x] at h2
    exact h2

theorem processOutbox_no_token_witness :
    (processOutbox true apiAccept wStore5).2.1 = 0 ∧
    (processOutbox true apiAccept wStore5).2.2.1
      = (getOutbox wStore5).countP (fun x => x.status == SyncStatus.pending) ∧
    (processOutbox true apiAccept wStore5).2.2.2 = [] ∧
    ∀ x ∈ getOutbox wStore5, x.status = SyncStatus.pending →
      (getOutbox (processOutbox true apiAccept wStore5).1).filter
        (fun y => y.id == x.id)
        = [errEntry x ("No authentication token available")] :=
  processOutbox_no_token apiAccept wStore5 (by decide) rfl

/-- C9: a pass never modifies, removes or syncs an item that was not
pending when it started: under unique ids, the entry carrying the id of a
non-pending item is, after the pass, still exactly that item. -/
theorem processOutbox_nonpending_untouched (api : Request → ApiOutcome) (s : Store)
    (hN : ((getOutbox s).map (fun x => x.id)).Nodup) (x : OutboxItem)
    (hx : x ∈ getOutbox s) (hs : x.status ≠ SyncStatus.pending) :
    (getOutbox (processOutbox true api s).1).filter (fun y => y.id == x.id) = [x] := by
  have hne : ∀ i ∈ (getOutbox s).filter (fun v => v.status == SyncStatus.pending),
      i.id ≠ x.id := by
    intro i hi hii
    have himem := List.mem_of_mem_filter hi
    have hip : i.status = SyncStatus.pending := by
      have := (List.mem_filter.mp hi).2
      simpa using this
    have hfx := filter_id_of_nodup (getOutbox s) hN x hx
    have hmem2 : i ∈ (getOutbox s).filter (fun y => y.id == x.id) :=
      List.mem_filter.mpr ⟨himem, by simp [hii]⟩
    rw [hfx] at hmem2
    have heq : i = x := List.mem_singleton.mp hmem2
    rw [heq] at hip
    exact hs hip
  rw [processOutbox_online,
    processItems_filter_untouched api _ s 0 0 [] x.id hne]
  exact filter_id_of_nodup (getOutbox s) hN x hx

theorem processOutbox_nonpending_untouched_witness :
    (getOutbox (processOutbox true apiAccept wStore9).1).filter
      (fun y => y.id == wItemE9.id) = [wItemE9] :=
  processOutbox_nonpending_untouched apiAccept wStore9 (by decide) wItemE9 (by decide)
    (by decide)

theorem remapRecipeId_decomp (oldId newId : String) (r1 : List Recipe) (rc : Recipe)
    (r2 : List Recipe) (hrc : rc.id = oldId) (h1 : ∀ y ∈ r1, y.id ≠ oldId) :
    remapRecipeId oldId newId (r1 ++ rc :: r2) = r1 ++ { rc with id := newId } :: r2 := by
  induction r1 with
  | nil => simp [remapRecipeId, hrc]
  | cons a r1 ih =>
      have ha : a.id ≠ oldId := h1 a (List.mem_cons_self a r1)
      simp [remapRecipeId, ha, ih (fun y hy => h1 y (List.mem_cons_of_mem a hy))]

/-- C4: a pending create whose request settles successfully with a server
id different from the client temporary id leaves the cached recipe list
with the recipe rewritten to the server id and no recipe carrying the
temporary id, and removes the outbox item. -/
theorem processOutbox_create_remap (api : Request → ApiOutcome) (s : Store)
    (item : OutboxItem) (t : String) (st : Nat) (rid : String)
    (r1 : List Recipe) (rc : Recipe) (r2 : List Recipe)
    (ht : s.token = some t) (hty : item.type = OpType.create)
    (hp : (getOutbox s).filter (fun x => x.status == SyncStatus.pending) = [item])
    (hresp : api (requestFor item) = ApiOutcome.resp true st rid)
    (hne : rid ≠ item.data.id)
    (hrec : getRecipes s = r1 ++ rc :: r2) (hrid : rc.id = item.data.id)
    (h1 : ∀ y ∈ r1, y.id ≠ item.data.id) (h2 : ∀ y ∈ r2, y.id ≠ item.data.id) :
    getRecipes (processOutbox true api s).1 = r1 ++ { rc with id := rid } :: r2 ∧
    (∃ y ∈ getRecipes (processOutbox true api s).1, y.id = rid) ∧
    (∀ y ∈ getRecipes (processOutbox true api s).1, y.id ≠ item.data.id) ∧
    (getOutbox (processOutbox true api s).1).filter (fun x => x.id == item.id) = [] := by
  have hfound : ((getRecipes s).any (fun r => r.id == item.data.id)) = true := by
    rw [hrec]
    simp [hrid]
  have hremap : remapRecipeId item.data.id rid (getRecipes s)
      = r1 ++ { rc with id := rid } :: r2 := by
    rw [hrec]
    exact remapRecipeId_decomp item.data.id rid r1 rc r2 hrid h1
  have he := tryProcessItem_create_respOk api item s t st rid ht hty hresp
  rw [if_pos hne, if_pos hfound] at he
  have hstep : syncStep api item s
      = (removeFromOutbox item.id
          (saveRecipes (remapRecipeId item.data.id rid (getRecipes s))
            (markSyncing item.id s)), true, [requestFor item]) := by
    simp only [syncStep, he]
  rw [processOutbox_online, hp, processItems_cons, hstep]
  have hc1 : getRecipes (processItems api [] (removeFromOutbox item.id
      (saveRecipes (remapRecipeId item.data.id rid (getRecipes s))
        (markSyncing item.id s))) (0 + 1) 0 ([] ++ [requestFor item])).1
      = r1 ++ { rc with id := rid } :: r2 := by
    show remapRecipeId item.data.id rid (getRecipes s) = _
    exact hremap
  refine ⟨hc1, ?_, ?_, ?_⟩
  · refine ⟨{ rc with id := rid }, ?_, rfl⟩
    rw [hc1]
    exact List.mem_append_right r1 (List.mem_cons_self _ r2)
  · intro y hy
    rw [hc1] at hy
    rcases List.mem_append.mp hy with hym | hym
    · exact h1 y hym
    · rcases List.mem_cons.mp hym with hye | hym2
      · rw [hye]
        exact hne
      · exact h2 y hym2
  · show (getOutbox (removeFromOutbox item.id
        (saveRecipes (remapRecipeId item.data.id rid (getRecipes s))
          (markSyncing item.id s)))).filter (fun x => x.id == item.id) = []
    rw [getOutbox_removeFromOutbox, getOutbox_saveRecipes]
    exact filter_bne_then_beq _ item.id

theorem processOutbox_create_remap_witness :
    getRecipes (processOutbox true apiCreate42 wStore4).1
      = [] ++ { Recipe.mk ("temp_abc") ("Pie") with id := "42" } :: [] ∧
    (∃ y ∈ getRecipes (processOutbox true apiCreate42 wStore4).1, y.id = "42") ∧
    (∀ y ∈ getRecipes (processOutbox true apiCreate42 wStore4).1,
      y.id ≠ wItem4.data.id) ∧
    (getOutbox (processOutbox true apiCreate42 wStore4).1).filter
      (fun x => x.id == wItem4.id) = [] :=
  processOutbox_create_remap apiCreate42 wStore4 wItem4 ("tok") 201 ("42") []
    { id := "temp_abc", title := "Pie" } [] rfl rfl (by decide) rfl (by decide) rfl rfl
    (by decide) (by decide)

/-- C1 (amended): an outbox item whose attempt fails during a pass remains
present with status error and the (non-empty) failure message when the
pass completes; it is NOT retried on the next pass: later passes process
only items whose status is pending, so the error entry is left untouched
by any subsequent pass. -/
theorem processOutbox_failed_item_error_not_retried (api : Request → ApiOutcome)
    (s : Store) (item : OutboxItem) (msg : String)
    (hN : ((getOutbox s).map (fun x => x.id)).Nodup)
    (hmem : item ∈ getOutbox s) (hp : item.status = SyncStatus.pending)
    (hf : attemptFails s.token api item = some msg) (hmsg : msg ≠ "") :
    (getOutbox (processOutbox true api s).1).filter (fun x => x.id == item.id)
        = [errEntry item msg] ∧
    (errEntry item msg).status = SyncStatus.error ∧
    (errEntry item msg).error = some msg ∧ msg ≠ "" ∧
    (∀ i ∈ (getOutbox (processOutbox true api s).1).filter
        (fun v => v.status == SyncStatus.pending), i.id ≠ item.id) ∧
    (∀ api2 : Request → ApiOutcome,
      (getOutbox (processOutbox true api2 (processOutbox true api s).1).1).filter
        (fun x => x.id == item.id) = [errEntry item msg]) := by
  obtain ⟨hy, he, hr, hmark⟩ := processItems_master api
    ((getOutbox s).filter (fun v => v.status == SyncStatus.pending)) s 0 0 []
    (pending_pairwise s hN) (pending_filter_eq s hN)
  have hmemp : item ∈ (getOutbox s).filter (fun v => v.status == SyncStatus.pending) :=
    List.mem_filter.mpr ⟨hmem, by simp [hp]⟩
  have hmarked : (getOutbox (processOutbox true api s).1).filter
      (fun x => x.id == item.id) = [errEntry item msg] := by
    rw [processOutbox_online]
    have h := hmark item hmemp
    rw [hf] at h
    exact h
  have hpend2 : ∀ i ∈ (getOutbox (processOutbox true api s).1).filter
      (fun v => v.status == SyncStatus.pending), i.id ≠ item.id := by
    intro i hi hii
    have hmem2 := List.mem_of_mem_filter hi
    have hip : i.status = SyncStatus.pending := by
      have := (List.mem_filter.mp hi).2
      simpa using this
    have hmem3 : i ∈ (getOutbox (processOutbox true api s).1).filter
        (fun x => x.id == item.id) := List.mem_filter.mpr ⟨hmem2, by simp [hii]⟩
    rw [hmarked] at hmem3
    have heq : i = errEntry item msg := List.mem_singleton.mp hmem3
    rw [heq] at hip
    exact absurd hip (by simp [errEntry])
  refine ⟨hmarked, rfl, rfl, hmsg, hpend2, ?_⟩
  intro api2
  rw [processOutbox_online api2 ((processOutbox true api s).1),
    processItems_filter_untouched api2 _ _ 0 0 [] item.id hpend2]
  exact hmarked

theorem processOutbox_failed_item_error_not_retried_witness :
    (getOutbox (processOutbox true apiReject wStore1).1).filter
      (fun x => x.id == wItem1.id) = [errEntry wItem1 ("Failed to fetch")] ∧
    (getOutbox (processOutbox true apiAccept
        (processOutbox true apiReject wStore1).1).1).filter
      (fun x => x.id == wItem1.id) = [errEntry wItem1 ("Failed to fetch")] :=
  ⟨(processOutbox_failed_item_error_not_retried apiReject wStore1 wItem1
      ("Failed to fetch") (by decide) (by decide) rfl rfl (by decide)).1,
   (processOutbox_failed_item_error_not_retried apiReject wStore1 wItem1
      ("Failed to fetch") (by decide) (by decide) rfl rfl
      (by decide)).2.2.2.2.2 apiAccept⟩

/-- C1 counterexample: a pending create whose call rejects is marked
error by the first pass, but the second pass, even against an environment
whose every call would succeed, returns zero counts, issues no requests
and leaves the store untouched: the failed item is not retried. -/
theorem processOutbox_failed_item_retry_cex :
    (processOutbox true apiReject wStore1).2.2.1 = 1 ∧
    getOutbox (processOutbox true apiReject wStore1).1
      = [errEntry wItem1 ("Failed to fetch")] ∧
    processOutbox true apiAccept (processOutbox true apiReject wStore1).1
      = ((processOutbox true apiReject wStore1).1, 0, 0, []) := by decide
